import Mathlib

/-!
# FA Viewer — verification of the scrape/parse/enrich pipeline

Shallow embedding of the FilmAffinity list-viewer server (the consolidated
iteration of the service, `server.js` and its sibling revisions).  HTML
extraction performed by the cheerio DOM library is modelled at its output
boundary: a parser receives the per-card extracted fields (link id, raw title
text, pagination-link texts, …) instead of raw HTML, and everything the
JavaScript does *after* the DOM queries is translated directly.  JavaScript
objects used as string-keyed dictionaries (`jobs`, `listCache`, `tmdbCache`)
are modelled as association lists; `fetch` network traffic is modelled by
passing the upstream responses as explicit inputs.

Conventions:
* JS `null`/`undefined`/missing values are `Option.none`; the JS truthiness of
  the empty string is modelled explicitly where the code relies on it.
* Timestamps (`Date.now()`) are `Nat` milliseconds passed in as `now`.
* Strings are treated as sequences of characters (the sources only ever index
  titles and URLs; the UTF-16 vs. codepoint distinction is immaterial here).
-/

namespace FAViewer

/-! ## String helpers (models of the JS string primitives used) -/

/-- Model of `needle` being a prefix of the character list (JS `String.prototype.startsWith` on a suffix position). -/
def isPrefixB : List Char → List Char → Bool
  | [], _ => true
  | _ :: _, [] => false
  | a :: as, b :: bs => a == b && isPrefixB as bs

/-- `includesB needle hay`: does `needle` occur contiguously in `hay`? -/
def includesB (needle : List Char) : List Char → Bool
  | [] => isPrefixB needle []
  | c :: rest => isPrefixB needle (c :: rest) || includesB needle rest

/-- Model of JS `s.includes(sub)`. -/
def strIncludes (s sub : String) : Bool :=
  includesB sub.toList s.toList

/-- Model of the JS `a || b` idiom on possibly-absent strings: the empty
string is falsy, so `some ""` falls through to `b`. -/
def jsOr (a b : Option String) : Option String :=
  match a with
  | some s => if s = "" then b else some s
  | none => b

/-- Model of the JS `x || null` idiom on numbers: `0` is falsy. -/
def nzNat (o : Option Nat) : Option Nat :=
  match o with
  | some 0 => none
  | x => x

/-! ## Association-list dictionaries (JS objects keyed by strings) -/

/-- JS `m[k]` read. -/
def alistLookup {α : Type} : List (String × α) → String → Option α
  | [], _ => none
  | (k2, v) :: rest, k => if k2 = k then some v else alistLookup rest k

/-- JS `m[k] = v` write (replaces the binding if present). -/
def alistInsert {α : Type} : List (String × α) → String → α → List (String × α)
  | [], k, v => [(k, v)]
  | (k2, v2) :: rest, k, v =>
    if k2 = k then (k, v) :: rest else (k2, v2) :: alistInsert rest k v

/-- JS `delete m[k]`. -/
def alistErase {α : Type} : List (String × α) → String → List (String × α)
  | [], _ => []
  | (k2, v) :: rest, k =>
    if k2 = k then alistErase rest k else (k2, v) :: alistErase rest k

/-- JS `Set.prototype.has` on a set of strings (the set is modelled by the
list of its elements). -/
def listHas : List String → String → Bool
  | [], _ => false
  | s :: rest, x => s == x || listHas rest x

/-! ## Key derivation: `makeKey` (base64 of the URL, alphanumerics only, 32 chars) -/

/-- UTF-8 encoding of one character (model of the bytes `Buffer.from(url)` holds). -/
def charUtf8 (c : Char) : List Nat :=
  let n := c.toNat
  if n < 128 then [n]
  else if n < 2048 then [192 + n / 64, 128 + n % 64]
  else if n < 65536 then [224 + n / 4096, 128 + n / 64 % 64, 128 + n % 64]
  else [240 + n / 262144, 128 + n / 4096 % 64, 128 + n / 64 % 64, 128 + n % 64]

/-- UTF-8 bytes of a string. -/
def utf8Bytes (s : String) : List Nat :=
  (s.toList.map charUtf8).flatten

/-- The base64 alphabet. -/
def base64Table : List Char :=
  "ABCDEFGHIJKLMNOPQRSTUVWXYZabcdefghijklmnopqrstuvwxyz0123456789+/".toList

/-- The base64 digit for a 6-bit value. -/
def base64Char (n : Nat) : Char := base64Table.getD n 'A'

/-- Standard base64 encoding of a byte list, with `=` padding
(model of `Buffer.toString("base64")`). -/
def base64Chunks : List Nat → List Char
  | [] => []
  | [b0] => [base64Char (b0 / 4), base64Char (b0 % 4 * 16), '=', '=']
  | [b0, b1] => [base64Char (b0 / 4), base64Char (b0 % 4 * 16 + b1 / 16),
                 base64Char (b1 % 16 * 4), '=']
  | b0 :: b1 :: b2 :: rest =>
    base64Char (b0 / 4) :: base64Char (b0 % 4 * 16 + b1 / 16) ::
    base64Char (b1 % 16 * 4 + b2 / 64) :: base64Char (b2 % 64) :: base64Chunks rest

/-- ASCII alphanumeric test (the JS regex class `[a-z0-9]` with flag `i`). -/
def isAlphanumAscii (c : Char) : Bool :=
  ('a' ≤ c && c ≤ 'z') || ('A' ≤ c && c ≤ 'Z') || ('0' ≤ c && c ≤ '9')

/-- `makeKey(url)`:
`Buffer.from(url).toString("base64").replace(/[^a-z0-9]/gi, "").slice(0, 32)`. -/
def makeKey (url : String) : String :=
  String.mk (((base64Chunks (utf8Bytes url)).filter isAlphanumAscii).take 32)

/-! ## Resilient fetcher: `faFetch` -/

/-- One upstream HTTP response as seen by `node-fetch`. -/
structure HttpResponse where
  status : Nat
  body : String
deriving Repr, DecidableEq

/-- The failure modes `faFetch` can throw. -/
inductive FetchError where
  | rateLimited (msg : String)
  | forbidden (msg : String)
  | unavailable (msg : String)
  | httpError (status : Nat)
  | emptyResponse
  | challengeBlocked
  | networkError
deriving Repr, DecidableEq

/-- `res.ok` of node-fetch: status in [200, 300). -/
def statusOkB (s : Nat) : Bool := 200 ≤ s && s ≤ 299

/-- The Cloudflare bot-challenge markers `faFetch` scans the body for. -/
def hasChallengeMarker (html : String) : Bool :=
  strIncludes html "Just a moment" ||
  strIncludes html "cf-browser-verification" ||
  strIncludes html "Checking your browser"

/-- The handling `faFetch` applies to the single HTTP response it receives. -/
def faFetchOnce (r : HttpResponse) : Except FetchError String :=
  if r.status = 429 then
    .error (.rateLimited "FilmAffinity ha limitado las peticiones (429). Espera unos minutos.")
  else if r.status = 403 then
    .error (.forbidden "FilmAffinity ha bloqueado el acceso (403). La IP del servidor puede estar vetada.")
  else if r.status = 503 then
    .error (.unavailable "FilmAffinity no disponible (503).")
  else if ¬ statusOkB r.status then
    .error (.httpError r.status)
  else if r.body.length < 200 then
    .error .emptyResponse
  else if hasChallengeMarker r.body then
    .error .challengeBlocked
  else
    .ok r.body

/-- `faFetch(url)` against a stream of upstream responses for consecutive
attempts.  The body of `faFetch` contains exactly one call to `fetch` and no
loop, so it consumes the head of the stream and never looks further; an empty
stream models the network rejecting the single `fetch` call. -/
def faFetch (responses : List HttpResponse) : Except FetchError String :=
  match responses with
  | [] => .error .networkError
  | r :: _ => faFetchOnce r

/-! ## More string models (JS `slice`, `trim`, `startsWith`, `endsWith`) -/

/-- JS `s.slice(0, n)` (character count). -/
def strTake (s : String) (n : Nat) : String := String.mk (s.toList.take n)

/-- JS `s.slice(n)` (character count). -/
def strDrop (s : String) (n : Nat) : String := String.mk (s.toList.drop n)

/-- Strip leading and trailing whitespace from a character list. -/
def trimChars (l : List Char) : List Char :=
  ((l.dropWhile Char.isWhitespace).reverse.dropWhile Char.isWhitespace).reverse

/-- JS `s.trim()`. -/
def strTrim (s : String) : String := String.mk (trimChars s.toList)

/-- JS `s.startsWith(pre)`. -/
def strStartsWith (s pre : String) : Bool := isPrefixB pre.toList s.toList

/-- JS `s.endsWith(suf)`. -/
def strEndsWith (s suf : String) : Bool := isPrefixB suf.toList.reverse s.toList.reverse

/-! ## Data model -/

/-- The `type` field of a film record. -/
inductive MediaType where
  | movie
  | series
deriving Repr, DecidableEq

/-- One film record as produced by `parseListPage` (the JS object literal
pushed onto `films`).  `title` is `none` where the JS code stores `null`
(possible only in the fallback strategy). -/
structure Film where
  id : String
  title : Option String
  poster : Option String
  rating : Option Rat
  year : Option Int
  mtype : MediaType
  faUrl : String
deriving Repr, DecidableEq

/-- Persisted result for one list: `{ films, ts, listUrl }`. -/
structure ListSnapshot where
  films : List Film
  ts : Nat
  listUrl : String
deriving Repr, DecidableEq

/-- The `listCache` / `lists` collection. -/
abbrev ListCache := List (String × ListSnapshot)

/-! ## List parser

`parseListPage` is modelled at the cheerio boundary: each matched container
element is a `Card` carrying the fields the JS code extracts from the DOM
before any further processing, and each document-wide film anchor of the
fallback strategy is an `Anchor`.  Everything after the DOM queries — the
id-regex filter, the title-repair rule, truthiness fallbacks, poster protocol
normalization, per-page dedup and the final dedup — is translated directly. -/

/-- One matched container element of the primary selector strategy.
`filmId` is the digit group of the first link matching `/film(\d{5,})\./`
(`none` when no such link exists).  `rawTitle` is the text of the first
title-selector hit, already fallen back to the link's `title` attribute
(`""` when both are absent), before the duplicate-half repair. -/
structure Card where
  filmId : Option String
  rawTitle : String
  poster : Option String
  rating : Option Rat
  year : Option Int
  isSeries : Bool
deriving Repr, DecidableEq

/-- One document-wide film anchor used by the fallback strategy. -/
structure Anchor where
  filmId : Option String
  titleAttr : Option String
  text : String
  poster : Option String
deriving Repr, DecidableEq

/-- Normalize a protocol-relative poster URL to https (the JS
`if (poster && poster.startsWith("//")) poster = "https:" + poster`). -/
def normalizePoster (p : Option String) : Option String :=
  match p with
  | some s => if strStartsWith s "//" then some ("https:" ++ s) else some s
  | none => none

/-- The canonical detail-page URL built from an id. -/
def mkFaUrl (id : String) : String :=
  "https://www.filmaffinity.com/es/film" ++ id ++ ".html"

/-- Title-repair rule of `parseListPage`: if the title, split at its midpoint,
has two (trimmed) equal halves, collapse it to one half.
JS:
`const half = Math.floor(title.length / 2);`
`const firstHalf = title.slice(0, half).trim();`
`const secondHalf = title.slice(half).trim();`
`if (firstHalf && firstHalf === secondHalf) title = firstHalf;`
guarded by `if (title)`. -/
def repairTitle (title : String) : String :=
  if title = "" then title
  else
    let half := title.length / 2
    let firstHalf := strTrim (strTake title half)
    let secondHalf := strTrim (strDrop title half)
    if firstHalf ≠ "" ∧ firstHalf = secondHalf then firstHalf else title

/-- Primary extraction pass over the matched containers, with the
`seenIds` in-page dedup set. -/
def primaryPass (seen : List String) : List Card → List Film
  | [] => []
  | c :: rest =>
    match c.filmId with
    | none => primaryPass seen rest
    | some id =>
      if listHas seen id then primaryPass seen rest
      else
        { id := id
          title := some (repairTitle c.rawTitle)
          poster := normalizePoster c.poster
          rating := c.rating
          year := c.year
          mtype := if c.isSeries then .series else .movie
          faUrl := mkFaUrl id } :: primaryPass (id :: seen) rest

/-- Fallback extraction pass over all film anchors in the document, with its
own `seen` dedup set.  Title is `$a.attr("title") || $a.text().trim() || null`. -/
def fallbackPass (seen : List String) : List Anchor → List Film
  | [] => []
  | a :: rest =>
    match a.filmId with
    | none => fallbackPass seen rest
    | some id =>
      if listHas seen id then fallbackPass seen rest
      else
        { id := id
          title := jsOr a.titleAttr (jsOr (some (strTrim a.text)) none)
          poster := normalizePoster a.poster
          rating := none
          year := none
          mtype := .movie
          faUrl := mkFaUrl id } :: fallbackPass (id :: seen) rest

/-- The final "deduplicate by id, first occurrence wins" filter
(`films.filter(f => { if (seen.has(f.id)) return false; seen.add(f.id); return true; })`). -/
def dedupByIdAux (seen : List String) : List Film → List Film
  | [] => []
  | f :: rest =>
    if listHas seen f.id then dedupByIdAux seen rest
    else f :: dedupByIdAux (f.id :: seen) rest

/-- Deduplicate a film list by id keeping the first occurrence of each id. -/
def dedupById (fs : List Film) : List Film := dedupByIdAux [] fs

/-- `parseListPage(html)`: primary strategy, fallback if it produced nothing,
then a final global dedup by id. -/
def parseListPage (cards : List Card) (anchors : List Anchor) : List Film :=
  let films := primaryPass [] cards
  let films := if films.isEmpty then fallbackPass [] anchors else films
  dedupById films

/-- One step of the `parseTotalPages` scan:
`if (!isNaN(n) && n > max && n <= 99) max = n`. -/
def ptpStep (mx : Int) (t : Option Int) : Int :=
  match t with
  | some n => if mx < n ∧ n ≤ 99 then n else mx
  | none => mx

/-- `parseTotalPages(html)`: the pagination-link texts are modelled by their
`parseInt` results (`none` for `NaN`).  JS:
`let max = 1; ...each: if (!isNaN(n) && n > max && n <= 99) max = n; return max`. -/
def parseTotalPages (pagerTexts : List (Option Int)) : Int :=
  pagerTexts.foldl ptpStep 1

/-! ## Refresh-job post-processing

`runRefreshJob` accumulates `allFilms` as the concatenation of the parsed
pages (stopping early on an empty or failing page), then executes
`allFilms = allFilms.reverse();`
`const seen = new Set();`
`allFilms = allFilms.filter(f => { if (seen.has(f.id)) return false; seen.add(f.id); return true; });`
before persisting the snapshot. -/

/-- The reverse-then-dedup post-processing applied to the concatenation of
the parsed pages before the snapshot is persisted. -/
def runRefreshScrape (pages : List (List Film)) : List Film :=
  dedupById pages.flatten.reverse

/-! ## Match-and-enrich engine: `normalizeTitle`, `scoreMatch`, `tmdbEnrich` -/

/-- ASCII lowercasing (model of `toLowerCase` on the titles compared here). -/
def asciiLower (c : Char) : Char :=
  if 'A' ≤ c && c ≤ 'Z' then Char.ofNat (c.toNat + 32) else c

/-- The JS `\w` class: `[A-Za-z0-9_]`. -/
def isWordChar (c : Char) : Bool := isAlphanumAscii c || c == '_'

/-- Split a character list into maximal whitespace-free words. -/
def wordsAux (acc : List Char) : List Char → List (List Char)
  | [] => if acc.isEmpty then [] else [acc.reverse]
  | c :: rest =>
    if c.isWhitespace then
      if acc.isEmpty then wordsAux [] rest else acc.reverse :: wordsAux [] rest
    else wordsAux (c :: acc) rest

/-- `normalizeTitle(s)`: lowercase, strip accents, drop `[^\w\s]`, collapse
whitespace runs to single spaces, trim.  The Unicode NFD decomposition step
(which only rewrites accented letters to their base letter) is not modelled:
on accent-free input it is the identity, and all comparisons proved here are
over its output. -/
def normalizeTitle (s : String) : String :=
  let lowered := s.toList.map asciiLower
  let kept := lowered.filter (fun c => isWordChar c || c.isWhitespace)
  String.mk (List.intercalate [' '] (wordsAux [] kept))

/-- One search result of the metadata API, at the fields `scoreMatch` and the
enrichment assembly read.  `titleOrName` models `result.title || result.name
|| ""`; `year` models `parseInt((result.release_date || result.first_air_date
|| "").slice(0, 4))` with `none` for `NaN`. -/
structure SearchResult where
  rid : Nat
  titleOrName : String
  year : Option Int
  overview : Option String
  posterPath : Option String
deriving Repr, DecidableEq

/-- The title component of `scoreMatch`, on the two already-normalized
titles: exact match 100, prefix/suffix-with-a-space 30, substring 10,
otherwise −60. -/
def titleScore (tmdbT faT : String) : Int :=
  if tmdbT = faT then 100
  else if strStartsWith tmdbT (faT ++ " ") || strEndsWith tmdbT (" " ++ faT) then 30
  else if strIncludes tmdbT faT then 10
  else -60

/-- The year component of `scoreMatch`, guarded by `if (faYear)` (so the JS
falsy year 0 contributes nothing): exact 50, off-by-one 20, other parsed
year −40, unparsed (`NaN`, falsy) nothing. -/
def yearScore (tmdbYear : Option Int) (faYear : Option Int) : Int :=
  match faYear with
  | none => 0
  | some y =>
    if y = 0 then 0  -- `if (faYear)`: the year 0 is falsy in JS
    else
      match tmdbYear with
      | none => 0
      | some y2 =>
        if y2 = y then 50
        else if (y2 - y).natAbs ≤ 1 then 20
        else if y2 ≠ 0 then -40 else 0  -- `else if (tmdbYear)`: NaN/0 falsy

/-- `scoreMatch(result, faTitle, faYear)` — the candidate score. -/
def scoreMatch (result : SearchResult) (faTitle : String) (faYear : Option Int) : Int :=
  titleScore (normalizeTitle result.titleOrName) (normalizeTitle faTitle) +
    yearScore result.year faYear

/-- The detail-endpoint payload fields the enrichment assembly reads.
`episodeRunTime` models `detail.episode_run_time?.[0]`. -/
structure DetailData where
  overview : Option String
  runtime : Option Nat
  episodeRunTime : Option Nat
  posterPath : Option String
  genres : List String
deriving Repr, DecidableEq

/-- The enrichment payload returned and cached on a successful match
(`{ synopsis, duration, type, genres, ...(poster ? { poster } : {}) }`). -/
structure EnrichData where
  synopsis : Option String
  duration : Option Nat
  mtype : MediaType
  genres : List String
  poster : Option String
deriving Repr, DecidableEq

/-- One entry of the enrichment cache: `{ data, ts }`, where `data = none`
models the empty-object negative entry `{}`. -/
structure CacheEntry where
  data : Option EnrichData
  ts : Nat
deriving Repr, DecidableEq

/-- The process-wide enrichment state: the in-memory `tmdbCache` and the
sequence of `dbSaveTmdb(faId, data)` calls issued to the durable store. -/
structure TmdbState where
  cacheMap : List (String × CacheEntry)
  dbWrites : List (String × Option EnrichData)
deriving Repr, DecidableEq

/-- What `tmdbEnrich` resolves to: a diagnostic tag object
(`{ _tmdb_error: tag }`), the empty object, or an enrichment payload. -/
inductive EnrichResult where
  | errorTag (tag : String)
  | empty
  | enriched (d : EnrichData)
deriving Repr, DecidableEq

/-- The upstream responses one `tmdbEnrich` call may consume: the two search
responses (status + parsed results) and the optional detail response. -/
structure EnrichEnv where
  mStatus : Nat
  mResults : List SearchResult
  tStatus : Nat
  tResults : List SearchResult
  detailOk : Bool
  detail : DetailData
deriving Repr, DecidableEq

/-- A scored candidate (`{ r, mediaType, score }`). -/
structure Candidate where
  r : SearchResult
  mediaType : MediaType
  score : Int
deriving Repr, DecidableEq

/-- `candidates.sort((a, b) => b.score - a.score)` followed by taking
`candidates[0]`: the earliest candidate of maximal score (the sort is stable). -/
def pickBest : List Candidate → Option Candidate
  | [] => none
  | c :: rest =>
    match pickBest rest with
    | none => some c
    | some b => if b.score > c.score then some b else some c

/-- The enrichment-cache freshness TTL: 7 days in milliseconds. -/
def tmdbTtl : Nat := 7 * 24 * 60 * 60 * 1000

/-- The body of `tmdbEnrich` after the key and cache checks: the two
concurrent searches, the 401 short-circuit, candidate scoring, the
acceptance threshold, the detail request and the final assembly+caching. -/
def tmdbEnrichFetch (now : Nat) (st : TmdbState) (filmId : String)
    (filmTitle : Option String) (filmYear : Option Int) (filmType : MediaType)
    (env : EnrichEnv) (cacheKey : String) : EnrichResult × TmdbState :=
  if env.mStatus = 401 ∨ env.tStatus = 401 then
    (.errorTag "invalid_key", st)
  else
    let mRs := (if statusOkB env.mStatus then env.mResults else []).take 5
    let tRs := (if statusOkB env.tStatus then env.tResults else []).take 5
    let faTitle := match filmTitle with | some t => t | none => ""
    let cands :=
      mRs.map (fun r =>
        { r := r, mediaType := MediaType.movie, score := scoreMatch r faTitle filmYear }) ++
      tRs.map (fun r =>
        { r := r, mediaType := MediaType.series, score := scoreMatch r faTitle filmYear })
    let cands := cands.map (fun c =>
      if c.mediaType = filmType then { c with score := c.score + 10 } else c)
    match pickBest cands with
    | none =>
      (.empty,
       { cacheMap := alistInsert st.cacheMap cacheKey { data := none, ts := now }
         dbWrites := st.dbWrites ++ [(filmId, none)] })
    | some best =>
      if best.score < 40 then
        (.empty,
         { cacheMap := alistInsert st.cacheMap cacheKey { data := none, ts := now }
           dbWrites := st.dbWrites ++ [(filmId, none)] })
      else
        let result := best.r
        let detail :=
          if env.detailOk then env.detail
          else
            { overview := result.overview, runtime := none, episodeRunTime := none
              posterPath := result.posterPath, genres := [] }
        let synopsis := jsOr detail.overview (jsOr result.overview none)
        let duration :=
          if best.mediaType = .series then nzNat detail.episodeRunTime
          else nzNat detail.runtime
        let posterPath := jsOr detail.posterPath (jsOr result.posterPath none)
        let poster := posterPath.map (fun p => "https://image.tmdb.org/t/p/w500" ++ p)
        let data : EnrichData :=
          { synopsis := synopsis, duration := duration, mtype := best.mediaType
            genres := detail.genres, poster := poster }
        (.enriched data,
         { cacheMap := alistInsert st.cacheMap cacheKey { data := some data, ts := now }
           dbWrites := st.dbWrites ++ [(filmId, some data)] })

/-- `tmdbEnrich(film)`: key check, cache check (7-day TTL), then the fetch
body.  A fresh cache entry is returned verbatim: the data payload for a
positive entry, the empty object for a negative one. -/
def tmdbEnrich (hasKey : Bool) (now : Nat) (st : TmdbState) (filmId : String)
    (filmTitle : Option String) (filmYear : Option Int) (filmType : MediaType)
    (env : EnrichEnv) : EnrichResult × TmdbState :=
  if ¬ hasKey then (.errorTag "no_key", st)
  else
    let cacheKey := "tmdb_" ++ filmId
    match alistLookup st.cacheMap cacheKey with
    | some e =>
      if now - e.ts < tmdbTtl then
        (match e.data with
         | none => .empty
         | some d => .enriched d, st)
      else tmdbEnrichFetch now st filmId filmTitle filmYear filmType env cacheKey
    | none => tmdbEnrichFetch now st filmId filmTitle filmYear filmType env cacheKey

/-! ## HTTP endpoints of the job orchestrator and cache

The query decoding prologue shared by the handlers
(`listUrl = /^https?:\/\//.test(url) ? url : atob(url)` inside `try/catch`)
is modelled by passing the decoded list URL as `Option String`: `none` when
the `url` parameter is missing or its base64 decoding throws. -/

/-- Job status strings. -/
inductive JobStatus where
  | running
  | done
  | error
deriving Repr, DecidableEq

/-- One entry of the `jobs` object: `{ status, progress, error }`. -/
structure Job where
  status : JobStatus
  progress : String
  error : Option String
deriving Repr, DecidableEq

/-- The `jobs` object. -/
abbrev JobMap := List (String × Job)

/-- The job created by `POST /api/refresh` before launching the task. -/
def initialJob : Job :=
  { status := .running, progress := "Conectando con FilmAffinity…", error := none }

/-- Response of `POST /api/refresh`. -/
inductive StartResponse where
  | badRequest (msg : String)
  | alreadyRunning (msg : String)
  | started
deriving Repr, DecidableEq

/-- `POST /api/refresh`: single-flight job start.  The third component
records whether the handler launched a background scrape task
(`runRefreshJob(key, listUrl)`), hence whether any upstream request can
originate from this call. -/
def refreshStart (jobs : JobMap) (listUrl : Option String) :
    JobMap × StartResponse × Bool :=
  match listUrl with
  | none => (jobs, .badRequest "URL inválida", false)
  | some u =>
    if strIncludes u "filmaffinity.com" then
      let key := makeKey u
      match alistLookup jobs key with
      | some j =>
        if j.status = .running then
          (jobs, .alreadyRunning "Ya hay una descarga en curso", false)
        else (alistInsert jobs key initialJob, .started, true)
      | none => (alistInsert jobs key initialJob, .started, true)
    else (jobs, .badRequest "Solo filmaffinity.com", false)

/-- Response of `GET /api/refresh-status`. -/
inductive StatusResponse where
  | badRequest (msg : String)
  | doneResp (films : List Film) (ts : Option Nat)
  | idle
  | runningResp (progress : String)
  | errorResp (msg : Option String)
  | unknown
deriving Repr, DecidableEq

/-- `GET /api/refresh-status`: polls the job for the key; a `done` read
returns the snapshot and deletes the job entry (`delete jobs[key]`). -/
def refreshStatus (jobs : JobMap) (cache : ListCache) (listUrl : Option String) :
    JobMap × StatusResponse :=
  match listUrl with
  | none => (jobs, .badRequest "Falta url")
  | some u =>
    let key := makeKey u
    match alistLookup jobs key with
    | none =>
      match alistLookup cache key with
      | some s => (jobs, .doneResp s.films (some s.ts))
      | none => (jobs, .idle)
    | some j =>
      if j.status = .running then (jobs, .runningResp j.progress)
      else if j.status = .error then (jobs, .errorResp j.error)
      else if j.status = .done then
        match alistLookup cache key with
        | some s => (alistErase jobs key, .doneResp s.films (some s.ts))
        | none => (alistErase jobs key, .doneResp [] none)
      else (jobs, .unknown)

/-- Response of `GET /api/list`. -/
inductive ListResponse where
  | badRequest (msg : String)
  | payload (films : List Film) (cached : Bool) (ts : Option Nat)
deriving Repr, DecidableEq

/-- `GET /api/list`: cache read only.  The second component is the list of
upstream URLs fetched while handling the request; the handler body contains
no call to `faFetch`, which the model makes explicit. -/
def apiList (cache : ListCache) (listUrl : Option String) :
    ListResponse × List String :=
  match listUrl with
  | none => (.badRequest "Falta url", [])
  | some u =>
    if strIncludes u "filmaffinity.com" then
      match alistLookup cache (makeKey u) with
      | some hit => (.payload hit.films true (some hit.ts), [])
      | none => (.payload [] false none, [])
    else (.badRequest "Solo filmaffinity.com", [])

/-- Response of `POST /api/restore`. -/
inductive RestoreResponse where
  | badRequest (msg : String)
  | ok
deriving Repr, DecidableEq

/-- `POST /api/restore`: saves the client-supplied films under the derived
key only when no snapshot exists for it (`films = none` models a missing or
non-array `films` body field; the snapshot timestamp is `Date.now()`). -/
def apiRestore (cache : ListCache) (now : Nat) (url : Option String)
    (films : Option (List Film)) : ListCache × RestoreResponse :=
  match url, films with
  | some u, some fs =>
    let key := makeKey u
    (match alistLookup cache key with
     | some _ => cache
     | none => alistInsert cache key { films := fs, ts := now, listUrl := u }, .ok)
  | _, _ => (cache, .badRequest "Datos inválidos")


/-! ## Concrete inputs used by individual claims -/

/-- A body long enough to pass the minimum-length check and free of
challenge markers. -/
def okBody : String := String.mk (List.replicate 300 'a')

/-- Two film records sharing one id but differing in their payload, as two
paginated fetches of the same list can produce. -/
def c2FilmA : Film :=
  { id := "100001", title := some "first-seen payload", poster := none,
    rating := none, year := none, mtype := .movie, faUrl := mkFaUrl "100001" }

/-- Second record with the same id as `c2FilmA`. -/
def c2FilmB : Film :=
  { id := "100001", title := some "last-seen payload", poster := none,
    rating := none, year := none, mtype := .movie, faUrl := mkFaUrl "100001" }

/-- A list URL used to exercise the job endpoints. -/
def exListUrl : String := "https://www.filmaffinity.com/es/userlist.php?user_id=1&list_id=1"

/-- A job that finished in the error state. -/
def c4ErrJob : Job := { status := .error, progress := "", error := some "boom" }

/-- A jobs map holding the errored job under the key of `exListUrl`. -/
def c4Jobs : JobMap := [(makeKey exListUrl, c4ErrJob)]

/-- A job that finished successfully. -/
def c4DoneJob : Job := { status := .done, progress := "", error := none }

/-- A jobs map holding the finished job under the key of `exListUrl`. -/
def c4DoneJobs : JobMap := [(makeKey exListUrl, c4DoneJob)]

/-- A cached film record. -/
def c5Film : Film :=
  { id := "987654", title := some "Cached film", poster := none,
    rating := none, year := some 2001, mtype := .movie, faUrl := mkFaUrl "987654" }

/-- A cached snapshot for `exListUrl`. -/
def c5Snap : ListSnapshot :=
  { films := [c5Film], ts := 1700000000000, listUrl := exListUrl }

/-- A list cache holding `c5Snap` under the key of `exListUrl`. -/
def c5Cache : ListCache := [(makeKey exListUrl, c5Snap)]

/-- Pagination-link texts reading 1..7 with one non-numeric link and a stray
year 2024. -/
def c6Pager : List (Option Int) :=
  [some 1, some 2, some 3, some 4, some 5, some 6, some 7, none, some 2024]

/-- A candidate whose title matches exactly and whose year matches exactly. -/
def c7Exact : SearchResult := { rid := 1, titleOrName := "Blue Moon", year := some 2025,
                                overview := none, posterPath := none }

/-- A candidate whose title matches exactly but which carries no year data. -/
def c7NoYear : SearchResult := { rid := 2, titleOrName := "blue moon", year := none,
                                 overview := none, posterPath := none }

/-- A candidate related to the source title only by substring containment. -/
def c7Sub : SearchResult := { rid := 3, titleOrName := "the blue moons", year := some 2025,
                              overview := none, posterPath := none }

/-- A container card carrying the duplicated-title artifact. -/
def c9Card : Card :=
  { filmId := some "100200", rawTitle := "Blue Moon Blue Moon", poster := none,
    rating := none, year := some 2025, isSeries := false }

/-- A pre-existing snapshot for `exListUrl` used by the restore claim. -/
def c10Snap : ListSnapshot := { films := [], ts := 123, listUrl := exListUrl }

/-- A cache already holding `c10Snap` under the key of `exListUrl`. -/
def c10Cache : ListCache := [(makeKey exListUrl, c10Snap)]

/-! ## Helper lemmas on the dictionary and dedup primitives -/

theorem alistLookup_insert_self {α : Type} (m : List (String × α)) (k : String) (v : α) :
    alistLookup (alistInsert m k v) k = some v := by
  induction m with
  | nil => simp [alistInsert, alistLookup]
  | cons p rest ih =>
    obtain ⟨k2, v2⟩ := p
    by_cases h : k2 = k
    · simp [alistInsert, alistLookup, h]
    · simp [alistInsert, alistLookup, h, ih]

theorem alistLookup_insert_ne {α : Type} (m : List (String × α)) (k k2 : String) (v : α)
    (h : k2 ≠ k) : alistLookup (alistInsert m k v) k2 = alistLookup m k2 := by
  induction m with
  | nil => simp [alistInsert, alistLookup, Ne.symm h]
  | cons p rest ih =>
    obtain ⟨k3, v3⟩ := p
    by_cases h3 : k3 = k
    · subst h3
      simp [alistInsert, alistLookup, Ne.symm h]
    · simp [alistInsert, alistLookup, h3, ih]

theorem alistLookup_erase_self {α : Type} (m : List (String × α)) (k : String) :
    alistLookup (alistErase m k) k = none := by
  induction m with
  | nil => simp [alistErase, alistLookup]
  | cons p rest ih =>
    obtain ⟨k2, v2⟩ := p
    by_cases h : k2 = k
    · simp [alistErase, h, ih]
    · simp [alistErase, alistLookup, h, ih]

theorem listHas_ne_of_false {seen : List String} {i x : String}
    (hi : listHas seen i = true) (hx : listHas seen x = false) : x ≠ i := by
  intro h
  subst h
  rw [hi] at hx
  exact Bool.noConfusion hx

theorem dedupByIdAux_filter_of_has (i : String) :
    ∀ (seen : List String) (fs : List Film), listHas seen i = true →
      (dedupByIdAux seen fs).filter (fun f => f.id == i) = [] := by
  intro seen fs
  induction fs generalizing seen with
  | nil => intro _; rfl
  | cons f rest ih =>
    intro hi
    rw [dedupByIdAux]
    by_cases h : listHas seen f.id
    · rw [if_pos h]
      exact ih seen hi
    · rw [if_neg h, List.filter_cons]
      have hne : f.id ≠ i := listHas_ne_of_false hi (Bool.of_not_eq_true h)
      simp only [hne, beq_iff_eq, if_false, if_neg]
      refine ih (f.id :: seen) ?_
      rw [listHas]
      simp [hi]

theorem dedupByIdAux_filter_len (i : String) :
    ∀ (seen : List String) (fs : List Film),
      ((dedupByIdAux seen fs).filter (fun f => f.id == i)).length ≤ 1 := by
  intro seen fs
  induction fs generalizing seen with
  | nil => simp [dedupByIdAux]
  | cons f rest ih =>
    rw [dedupByIdAux]
    by_cases h : listHas seen f.id
    · rw [if_pos h]; exact ih seen
    · rw [if_neg h, List.filter_cons]
      by_cases hfi : f.id = i
      · subst hfi
        have : listHas (f.id :: seen) f.id = true := by
          rw [listHas]; simp
        rw [dedupByIdAux_filter_of_has f.id (f.id :: seen) rest this]
        simp
      · simp only [hfi, beq_iff_eq, if_neg, if_false]
        exact ih (f.id :: seen)

theorem dedupByIdAux_find (i : String) :
    ∀ (seen : List String) (fs : List Film), listHas seen i = false →
      (dedupByIdAux seen fs).find? (fun f => f.id == i) =
        fs.find? (fun f => f.id == i) := by
  intro seen fs
  induction fs generalizing seen with
  | nil => intro _; rfl
  | cons f rest ih =>
    intro hi
    rw [dedupByIdAux]
    by_cases h : listHas seen f.id
    · rw [if_pos h]
      have hne : f.id ≠ i := by
        intro heq
        rw [heq, hi] at h
        exact Bool.noConfusion h
      rw [List.find?_cons_of_neg _ (by simpa using hne)]
      exact ih seen hi
    · rw [if_neg h]
      by_cases hfi : f.id = i
      · rw [List.find?_cons_of_pos _ (by simpa using hfi),
            List.find?_cons_of_pos _ (by simpa using hfi)]
      · rw [List.find?_cons_of_neg _ (by simpa using hfi),
            List.find?_cons_of_neg _ (by simpa using hfi)]
        refine ih (f.id :: seen) ?_
        rw [listHas]
        simp [hi, hfi]

theorem find_reverse_eq_getLast_filter {α : Type} (p : α → Bool) :
    ∀ (l : List α), l.reverse.find? p = (l.filter p).getLast? := by
  intro l
  induction l with
  | nil => rfl
  | cons a rest ih =>
    rw [List.reverse_cons, List.find?_append, ih, List.filter_cons]
    by_cases h : p a
    · rw [if_pos h]
      cases hfp : rest.filter p with
      | nil => simp [List.find?, h]
      | cons b bs =>
        rw [List.getLast?_cons_cons]
        have : (b :: bs).getLast? = some ((b :: bs).getLast (by simp)) :=
          List.getLast?_eq_getLast_of_ne_nil (by simp)
        rw [this]
        rfl
    · rw [if_neg h]
      simp [List.find?, h]

/-! ## Claim C1 — the page fetch does not retry on HTTP 429 -/

set_option maxRecDepth 20000

/-- Claim C1 as stated is false: for the upstream response stream whose
first attempt returns HTTP 429 and whose second attempt returns HTTP 200
with a valid body, `faFetch` surfaces the rate-limited error instead of the
page, even though the very same handling applied to the second response
would have succeeded. -/
theorem faFetch_429_counterexample :
    faFetch [{ status := 429, body := "" }, { status := 200, body := okBody }] =
      .error (.rateLimited
        "FilmAffinity ha limitado las peticiones (429). Espera unos minutos.") ∧
    faFetchOnce { status := 200, body := okBody } = .ok okBody :=
  ⟨rfl, rfl⟩

/-- Claim C1 (amended): `faFetch` performs exactly one attempt and applies no
retry or backoff; whenever the first upstream response has status 429, it
immediately fails with the RateLimited error carrying the user-facing wait
suggestion, regardless of what any later attempt would have returned. -/
theorem faFetch_429_no_retry (r : HttpResponse) (rest : List HttpResponse)
    (h : r.status = 429) :
    faFetch (r :: rest) =
      .error (.rateLimited
        "FilmAffinity ha limitado las peticiones (429). Espera unos minutos.") := by
  rw [faFetch, faFetchOnce, if_pos h]

/-- Witness for `faFetch_429_no_retry` at the concrete 429-then-200 stream. -/
theorem faFetch_429_no_retry_witness :
    (HttpResponse.mk 429 "").status = 429 ∧
    faFetch [{ status := 429, body := "" }, { status := 200, body := okBody }] =
      .error (.rateLimited
        "FilmAffinity ha limitado las peticiones (429). Espera unos minutos.") :=
  ⟨rfl, faFetch_429_no_retry { status := 429, body := "" }
    [{ status := 200, body := okBody }] rfl⟩

/-! ## Claim C2 — dedup of the refresh job runs after the reversal -/

/-- Claim C2 as stated is false: with the one-page scrape producing two
records of the same id, the job post-processing keeps the record that
appeared *last* in scrape order (`c2FilmB`), while deduplicating before the
reversal — what the claim describes — would keep the first-seen record
(`c2FilmA`). -/
theorem runRefreshScrape_counterexample :
    runRefreshScrape [[c2FilmA, c2FilmB]] = [c2FilmB] ∧
    (dedupById [c2FilmA, c2FilmB]).reverse = [c2FilmA] ∧
    c2FilmA ≠ c2FilmB :=
  ⟨rfl, rfl, by decide⟩

/-- Claim C2 (amended): the refresh job removes duplicate ids from the
accumulated film sequence *after* reversing it, keeping the first occurrence
of each id in the reversed order; hence in the persisted snapshot each id
occurs at most once, and the surviving record for each id is the one that
appeared *last* in scrape order. -/
theorem runRefreshScrape_spec (pages : List (List Film)) (i : String) :
    runRefreshScrape pages = dedupById pages.flatten.reverse ∧
    ((runRefreshScrape pages).filter (fun f => f.id == i)).length ≤ 1 ∧
    (runRefreshScrape pages).find? (fun f => f.id == i) =
      (pages.flatten.filter (fun f => f.id == i)).getLast? := by
  refine ⟨rfl, dedupByIdAux_filter_len i [] _, ?_⟩
  rw [runRefreshScrape, dedupById, dedupByIdAux_find i [] _ rfl,
    find_reverse_eq_getLast_filter]

/-! ## Claim C3 — job single-flight per list key -/

/-- Claim C3: a refresh-start request for a key whose job is `running` is a
no-op that answers "already running" and launches no scrape task (hence no
upstream request); a start request when no running job exists for the key
writes exactly the one fresh `running` job with its initial progress message
under that key (leaving every other key untouched) and launches the task. -/
theorem refreshStart_single_flight (jobs : JobMap) (u : String)
    (hfa : strIncludes u "filmaffinity.com" = true) :
    (∀ j, alistLookup jobs (makeKey u) = some j → j.status = .running →
      refreshStart jobs (some u) =
        (jobs, .alreadyRunning "Ya hay una descarga en curso", false)) ∧
    ((∀ j, alistLookup jobs (makeKey u) = some j → j.status ≠ .running) →
      refreshStart jobs (some u) =
        (alistInsert jobs (makeKey u) initialJob, .started, true) ∧
      alistLookup (alistInsert jobs (makeKey u) initialJob) (makeKey u) = some initialJob ∧
      (∀ k, k ≠ makeKey u →
        alistLookup (alistInsert jobs (makeKey u) initialJob) k = alistLookup jobs k) ∧
      initialJob.status = .running ∧
      initialJob.progress = "Conectando con FilmAffinity…") := by
  constructor
  · intro j hj hrun
    simp [refreshStart, hfa, hj, hrun]
  · intro hno
    refine ⟨?_, alistLookup_insert_self _ _ _,
      fun k hk => alistLookup_insert_ne _ _ _ _ hk, rfl, rfl⟩
    cases hlk : alistLookup jobs (makeKey u) with
    | none => simp [refreshStart, hfa, hlk]
    | some j =>
      have hne := hno j hlk
      simp [refreshStart, hfa, hlk, hne]

/-- Witness for `refreshStart_single_flight`: starting on an empty jobs map
creates the one running job and launches the task. -/
theorem refreshStart_single_flight_witness :
    strIncludes exListUrl "filmaffinity.com" = true ∧
    refreshStart [] (some exListUrl) =
      (alistInsert [] (makeKey exListUrl) initialJob, .started, true) :=
  ⟨by decide,
   ((refreshStart_single_flight [] exListUrl (by decide)).2
     (fun j hj => by simp [alistLookup] at hj)).1⟩

/-! ## Claim C4 — which terminal job states are consumed by a status read -/

/-- Claim C4 as stated is false: a status read observing the `error` state
returns the error but leaves the job entry in place, so a subsequent read
for the same key still finds the errored job instead of finding no job. -/
theorem refreshStatus_error_counterexample :
    (refreshStatus c4Jobs [] (some exListUrl)).2 = .errorResp (some "boom") ∧
    (refreshStatus c4Jobs [] (some exListUrl)).1 = c4Jobs ∧
    alistLookup (refreshStatus c4Jobs [] (some exListUrl)).1 (makeKey exListUrl) =
      some c4ErrJob ∧
    (refreshStatus (refreshStatus c4Jobs [] (some exListUrl)).1 [] (some exListUrl)).2 =
      .errorResp (some "boom") := by
  refine ⟨rfl, rfl, ?_, rfl⟩
  simp [refreshStatus, c4Jobs, alistLookup, c4ErrJob]

/-- Claim C4 (amended): only the `done` terminal state is consumed by a
status read — after a read that observes `done` the job entry is removed, so
a subsequent read finds no job for the key; a read that observes `error`
returns the error message and leaves the job entry unchanged. -/
theorem refreshStatus_terminal (jobs : JobMap) (cache : ListCache) (u : String) (j : Job)
    (hj : alistLookup jobs (makeKey u) = some j) :
    (j.status = .done →
      (refreshStatus jobs cache (some u)).1 = alistErase jobs (makeKey u) ∧
      alistLookup (refreshStatus jobs cache (some u)).1 (makeKey u) = none) ∧
    (j.status = .error →
      refreshStatus jobs cache (some u) = (jobs, .errorResp j.error)) := by
  constructor
  · intro hd
    cases hc : alistLookup cache (makeKey u) with
    | none =>
      refine ⟨?_, ?_⟩ <;>
        simp [refreshStatus, hj, hd, hc, alistLookup_erase_self]
    | some s =>
      refine ⟨?_, ?_⟩ <;>
        simp [refreshStatus, hj, hd, hc, alistLookup_erase_self]
  · intro he
    simp [refreshStatus, hj, he]

/-- Witness for `refreshStatus_terminal`: reading a finished (`done`) job
removes its entry. -/
theorem refreshStatus_terminal_witness :
    alistLookup c4DoneJobs (makeKey exListUrl) = some c4DoneJob ∧
    c4DoneJob.status = .done ∧
    alistLookup (refreshStatus c4DoneJobs [] (some exListUrl)).1 (makeKey exListUrl) =
      none :=
  ⟨by simp [c4DoneJobs, alistLookup], rfl,
   ((refreshStatus_terminal c4DoneJobs [] exListUrl c4DoneJob
     (by simp [c4DoneJobs, alistLookup])).1 rfl).2⟩

/-! ## Claim C5 — the list-read endpoint never scrapes -/

/-- Claim C5: handling `GET /api/list` issues no upstream fetch whatsoever,
and for a well-formed target URL it answers immediately with the cached
snapshot when one exists for the derived key and with the empty result
otherwise. -/
theorem apiList_never_scrapes (cache : ListCache) (lu : Option String) :
    (apiList cache lu).2 = [] ∧
    (∀ u, lu = some u → strIncludes u "filmaffinity.com" = true →
      ((∃ s, alistLookup cache (makeKey u) = some s ∧
         (apiList cache lu).1 = .payload s.films true (some s.ts)) ∨
       (alistLookup cache (makeKey u) = none ∧
         (apiList cache lu).1 = .payload [] false none))) := by
  constructor
  · cases lu with
    | none => rfl
    | some u =>
      by_cases hfa : strIncludes u "filmaffinity.com"
      · cases hc : alistLookup cache (makeKey u) <;> simp [apiList, hfa, hc]
      · simp [apiList, hfa]
  · intro u hu hfa
    subst hu
    cases hc : alistLookup cache (makeKey u) with
    | none => exact Or.inr ⟨rfl, by simp [apiList, hfa, hc]⟩
    | some s => exact Or.inl ⟨s, rfl, by simp [apiList, hfa, hc]⟩

/-- Witness for `apiList_never_scrapes` on a cache holding a snapshot. -/
theorem apiList_never_scrapes_witness :
    (apiList c5Cache (some exListUrl)).2 = [] ∧
    ((∃ s, alistLookup c5Cache (makeKey exListUrl) = some s ∧
       (apiList c5Cache (some exListUrl)).1 = .payload s.films true (some s.ts)) ∨
     (alistLookup c5Cache (makeKey exListUrl) = none ∧
       (apiList c5Cache (some exListUrl)).1 = .payload [] false none)) :=
  ⟨(apiList_never_scrapes c5Cache (some exListUrl)).1,
   (apiList_never_scrapes c5Cache (some exListUrl)).2 exListUrl rfl (by decide)⟩

/-! ## Claim C6 — `parseTotalPages` takes the maximum pagination number ≤ 99 -/

/-- Fold invariant for `parseTotalPages`: the accumulator only grows, is
either the initial value or one of the scanned numbers ≤ 99, and ends up an
upper bound of every scanned number ≤ 99. -/
theorem ptpFold_aux (ts : List (Option Int)) :
    ∀ a : Int,
      a ≤ ts.foldl ptpStep a ∧
      (ts.foldl ptpStep a = a ∨
        (some (ts.foldl ptpStep a) ∈ ts ∧ ts.foldl ptpStep a ≤ 99)) ∧
      (∀ n : Int, some n ∈ ts → n ≤ 99 → n ≤ ts.foldl ptpStep a) := by
  induction ts with
  | nil => intro a; exact ⟨le_refl a, Or.inl rfl, by simp⟩
  | cons t rest ih =>
    intro a
    rw [List.foldl_cons]
    obtain ⟨ih1, ih2, ih3⟩ := ih (ptpStep a t)
    have hstep : a ≤ ptpStep a t := by
      cases t with
      | none => simp [ptpStep]
      | some n =>
        simp only [ptpStep]
        split
        · omega
        · exact le_refl a
    refine ⟨le_trans hstep ih1, ?_, ?_⟩
    · rcases ih2 with h | ⟨hm, hle⟩
      · cases t with
        | none => exact Or.inl (by simpa [ptpStep] using h)
        | some n =>
          by_cases hc : a < n ∧ n ≤ 99
          · refine Or.inr ⟨?_, ?_⟩
            · rw [h]
              simp [ptpStep, hc]
            · rw [h]
              simp only [ptpStep, if_pos hc]
              exact hc.2
          · exact Or.inl (by rw [h]; simp [ptpStep, hc])
      · exact Or.inr ⟨List.mem_cons_of_mem _ hm, hle⟩
    · intro n hn h99
      rcases List.mem_cons.mp hn with heq | hm
      · have ht : t = some n := heq.symm
        subst ht
        have : n ≤ ptpStep a (some n) := by
          simp only [ptpStep]
          split
          · exact le_refl n
          · omega
        exact le_trans this ih1
      · exact ih3 n hm h99

/-- Claim C6: `parseTotalPages` returns an integer ≥ 1 that is ≤ 99, is an
upper bound of every parsed pagination number ≤ 99, and is either the
default 1 or itself one of the parsed numbers — so the result is the maximum
parsed pagination number within the ≤ 99 ceiling (default 1), and a stray
larger number such as 2024 is never returned. -/
theorem parseTotalPages_spec (ts : List (Option Int)) :
    1 ≤ parseTotalPages ts ∧
    parseTotalPages ts ≤ 99 ∧
    (∀ n : Int, some n ∈ ts → n ≤ 99 → n ≤ parseTotalPages ts) ∧
    (parseTotalPages ts = 1 ∨ some (parseTotalPages ts) ∈ ts) ∧
    (∀ n : Int, some n ∈ ts → 99 < n → parseTotalPages ts ≠ n) := by
  obtain ⟨h1, h2, h3⟩ := ptpFold_aux ts 1
  have e : parseTotalPages ts = ts.foldl ptpStep 1 := rfl
  have h99 : parseTotalPages ts ≤ 99 := by
    rw [e]
    rcases h2 with h | ⟨_, h⟩
    · omega
    · exact h
  refine ⟨by rw [e]; exact h1, h99, fun n hn hle => by rw [e]; exact h3 n hn hle, ?_, ?_⟩
  · rcases h2 with h | ⟨hm, _⟩
    · exact Or.inl (by rw [e, h])
    · exact Or.inr (by rw [e]; exact hm)
  · intro n _ hgt heq
    rw [heq] at h99
    omega

/-- Witness for `parseTotalPages_spec` on pagination links 1..7 plus a
stray 2024: the result is 7 and is not 2024. -/
theorem parseTotalPages_spec_witness :
    some (7 : Int) ∈ c6Pager ∧ (7 : Int) ≤ 99 ∧
    (7 : Int) ≤ parseTotalPages c6Pager ∧
    parseTotalPages c6Pager = 7 ∧
    some (2024 : Int) ∈ c6Pager ∧ (99 : Int) < 2024 ∧
    parseTotalPages c6Pager ≠ 2024 :=
  ⟨by decide, by decide,
   (parseTotalPages_spec c6Pager).2.2.1 7 (by decide) (by decide),
   by decide, by decide, by decide,
   (parseTotalPages_spec c6Pager).2.2.2.2 2024 (by decide) (by decide)⟩

/-! ## Claim C7 — scoring monotonicity of `scoreMatch` -/

/-- The year component never exceeds its exact-match bonus. -/
theorem yearScore_le (t f : Option Int) : yearScore t f ≤ 50 := by
  rw [yearScore.eq_def]
  repeat' split
  all_goals omega

/-- Claim C7: against a source record having a (nonzero) year, a candidate
with exact normalized-title match and exact year match strictly outscores a
candidate with exact normalized-title match and no year data, which strictly
outscores any candidate related to the source title only by substring
containment. -/
theorem scoreMatch_monotone (a b c : SearchResult) (faTitle : String) (y : Int)
    (hy : y ≠ 0)
    (haT : normalizeTitle a.titleOrName = normalizeTitle faTitle)
    (haY : a.year = some y)
    (hbT : normalizeTitle b.titleOrName = normalizeTitle faTitle)
    (hbY : b.year = none)
    (hcT : normalizeTitle c.titleOrName ≠ normalizeTitle faTitle)
    (hcP : strStartsWith (normalizeTitle c.titleOrName)
             (normalizeTitle faTitle ++ " ") = false)
    (hcS : strEndsWith (normalizeTitle c.titleOrName)
             (" " ++ normalizeTitle faTitle) = false)
    (hcI : strIncludes (normalizeTitle c.titleOrName) (normalizeTitle faTitle) = true) :
    scoreMatch b faTitle (some y) < scoreMatch a faTitle (some y) ∧
    scoreMatch c faTitle (some y) < scoreMatch b faTitle (some y) := by
  have ha : scoreMatch a faTitle (some y) = 150 := by
    rw [scoreMatch, haY, titleScore, if_pos haT, yearScore.eq_def]
    simp [hy]
  have hb : scoreMatch b faTitle (some y) = 100 := by
    rw [scoreMatch, hbY, titleScore, if_pos hbT, yearScore.eq_def]
    simp [hy]
  have hc : scoreMatch c faTitle (some y) ≤ 60 := by
    have ht : titleScore (normalizeTitle c.titleOrName) (normalizeTitle faTitle) = 10 := by
      rw [titleScore, if_neg hcT, hcP, hcS]
      simp [hcI]
    have hys := yearScore_le c.year (some y)
    rw [scoreMatch, ht]
    omega
  omega

/-- Witness for `scoreMatch_monotone` on the concrete candidates
`c7Exact`, `c7NoYear`, `c7Sub` for the source record
`("Blue Moon", 2025)`. -/
theorem scoreMatch_monotone_witness :
    normalizeTitle c7Exact.titleOrName = normalizeTitle "Blue Moon" ∧
    c7Exact.year = some 2025 ∧
    normalizeTitle c7NoYear.titleOrName = normalizeTitle "Blue Moon" ∧
    c7NoYear.year = none ∧
    normalizeTitle c7Sub.titleOrName ≠ normalizeTitle "Blue Moon" ∧
    strIncludes (normalizeTitle c7Sub.titleOrName) (normalizeTitle "Blue Moon") = true ∧
    scoreMatch c7NoYear "Blue Moon" (some 2025) < scoreMatch c7Exact "Blue Moon" (some 2025) ∧
    scoreMatch c7Sub "Blue Moon" (some 2025) < scoreMatch c7NoYear "Blue Moon" (some 2025) := by
  have h := scoreMatch_monotone c7Exact c7NoYear c7Sub "Blue Moon" 2025
    (by decide) (by decide) (by decide) (by decide) (by decide)
    (by decide) (by decide) (by decide) (by decide)
  exact ⟨by decide, by decide, by decide, by decide, by decide, by decide, h.1, h.2⟩

/-! ## Claim C8 — a 401 from either search short-circuits without caching -/

/-- Claim C8: when the film has no fresh enrichment-cache entry and either
metadata-API search answers HTTP 401, `tmdbEnrich` returns the
`invalid_key` diagnostic tag and leaves the enrichment state untouched — no
in-memory cache entry (in particular no empty negative entry) and no durable
write is produced for that film id. -/
theorem tmdbEnrich_invalid_key (now : Nat) (st : TmdbState) (filmId : String)
    (filmTitle : Option String) (filmYear : Option Int) (filmType : MediaType)
    (env : EnrichEnv)
    (hmiss : ∀ e, alistLookup st.cacheMap ("tmdb_" ++ filmId) = some e →
      tmdbTtl ≤ now - e.ts)
    (h401 : env.mStatus = 401 ∨ env.tStatus = 401) :
    tmdbEnrich true now st filmId filmTitle filmYear filmType env =
      (.errorTag "invalid_key", st) := by
  cases hlk : alistLookup st.cacheMap ("tmdb_" ++ filmId) with
  | none => simp [tmdbEnrich, hlk, tmdbEnrichFetch, h401]
  | some e =>
    have hfresh : ¬ (now - e.ts < tmdbTtl) := by
      have := hmiss e hlk
      omega
    simp [tmdbEnrich, hlk, hfresh, tmdbEnrichFetch, h401]

/-- Witness for `tmdbEnrich_invalid_key`: empty cache, movie search
answering 401. -/
theorem tmdbEnrich_invalid_key_witness :
    ((401 : Nat) = 401 ∨ (200 : Nat) = 401) ∧
    tmdbEnrich true 0 { cacheMap := [], dbWrites := [] } "555555" (some "X") none .movie
      { mStatus := 401, mResults := [], tStatus := 200, tResults := [],
        detailOk := false,
        detail := { overview := none, runtime := none, episodeRunTime := none,
                    posterPath := none, genres := [] } } =
      (.errorTag "invalid_key", { cacheMap := [], dbWrites := [] }) :=
  ⟨Or.inl rfl,
   tmdbEnrich_invalid_key 0 { cacheMap := [], dbWrites := [] } "555555" (some "X")
     none .movie _ (fun e he => by simp [alistLookup] at he) (Or.inl rfl)⟩

/-! ## Claim C9 — duplicated-title repair in `parseListPage` -/

/-- Claim C9: for a parsed container card whose extracted title splits at the
midpoint into two equal (trimmed, nonempty) halves, `parseListPage` emits the
record with the title collapsed to the single half — in particular
`"Blue Moon Blue Moon"` becomes `"Blue Moon"` (see the witness). -/
theorem parseListPage_title_repair (c : Card) (id : String)
    (hid : c.filmId = some id)
    (hne : strTrim (strTake c.rawTitle (c.rawTitle.length / 2)) ≠ "")
    (heq : strTrim (strTake c.rawTitle (c.rawTitle.length / 2)) =
           strTrim (strDrop c.rawTitle (c.rawTitle.length / 2))) :
    (parseListPage [c] []).map Film.title =
      [some (strTrim (strTake c.rawTitle (c.rawTitle.length / 2)))] := by
  have hrt : repairTitle c.rawTitle =
      strTrim (strTake c.rawTitle (c.rawTitle.length / 2)) := by
    have hraw : c.rawTitle ≠ "" := by
      intro h
      apply hne
      rw [h]
      rfl
    simp only [repairTitle]
    rw [if_neg hraw, if_pos ⟨hne, heq⟩]
  simp [parseListPage, primaryPass, hid, listHas, dedupById, dedupByIdAux, hrt]

/-- Witness for `parseListPage_title_repair` on the duplicated title
`"Blue Moon Blue Moon"`. -/
theorem parseListPage_title_repair_witness :
    c9Card.filmId = some "100200" ∧
    c9Card.rawTitle = "Blue Moon Blue Moon" ∧
    (parseListPage [c9Card] []).map Film.title = [some "Blue Moon"] := by
  refine ⟨rfl, rfl, ?_⟩
  have h := parseListPage_title_repair c9Card "100200" rfl (by decide) (by decide)
  rw [h]
  decide

/-! ## Claim C10 — restore writes only when no snapshot exists -/

/-- Claim C10: `POST /api/restore` with a valid body stores the supplied
films (under the derived key, stamped with the current time) only when the
store has no snapshot for that key; when a snapshot already exists the store
is left completely unchanged, and in both cases the endpoint reports
success. -/
theorem apiRestore_only_when_absent (cache : ListCache) (now : Nat) (u : String)
    (fs : List Film) :
    (∀ s, alistLookup cache (makeKey u) = some s →
      apiRestore cache now (some u) (some fs) = (cache, .ok)) ∧
    (alistLookup cache (makeKey u) = none →
      apiRestore cache now (some u) (some fs) =
        (alistInsert cache (makeKey u) { films := fs, ts := now, listUrl := u }, .ok)) := by
  constructor
  · intro snap hs
    simp [apiRestore, hs]
  · intro h
    simp [apiRestore, h]

/-- Witness for `apiRestore_only_when_absent`: restoring onto an existing
snapshot leaves the store unchanged, restoring onto an empty store writes
the snapshot. -/
theorem apiRestore_only_when_absent_witness :
    alistLookup c10Cache (makeKey exListUrl) = some c10Snap ∧
    apiRestore c10Cache 999 (some exListUrl) (some []) = (c10Cache, .ok) ∧
    apiRestore [] 999 (some exListUrl) (some []) =
      (alistInsert [] (makeKey exListUrl) { films := [], ts := 999, listUrl := exListUrl },
       .ok) :=
  ⟨by simp [c10Cache, alistLookup],
   (apiRestore_only_when_absent c10Cache 999 exListUrl []).1 c10Snap
     (by simp [c10Cache, alistLookup]),
   (apiRestore_only_when_absent [] 999 exListUrl []).2 rfl⟩

end FAViewer
